import Mathlib

/-!
Verification development for the mcp-go server's session and task
management layer.

The `Mcp` namespace embeds the `mcp` package types and helpers
(`mcp/tasks.go`).  The `Server` namespace embeds the server-side task
store, request dispatcher, correlation table and elicitation entry
points.  The server implementation itself ships outside the sources at
hand (only its tests, its generated method table and the `mcp` type
helpers are present), so the server-side operations are modelled from
the specification, as their doc comments state; the `mcp` package
helpers are translated directly from `mcp/tasks.go`.

Concurrency is modelled by explicit state passing: the Go task store is
a map from task id to a pointer to a task entry, rendered here as an
association list of entries updated functionally.  Real time is
modelled as abstract milliseconds (`Nat`): an operation that in Go
reads the clock receives the current instant as an argument, and the
blocking `waitForResult` receives the schedule of the events (done
signal, caller context cancellation) that can unblock it.
-/

namespace Mcp

/-- Task status, per the spec's data model: `working`, `input-required`,
`completed`, `failed`, `cancelled`. -/
inductive TaskStatus where
  | working
  | inputRequired
  | completed
  | failed
  | cancelled
  deriving DecidableEq, Repr

/-- Modelled from the spec: `TaskStatus.IsTerminal` (its Go body is not among
the sources; the spec states `completed`, `failed`, `cancelled` are terminal,
and the table in `TestMCPServer_TaskStatusIsTerminal` agrees). -/
def TaskStatus.IsTerminal : TaskStatus → Bool
  | .completed => true
  | .failed => true
  | .cancelled => true
  | _ => false

/-- The `mcp.Task` record.  Field names follow the Go struct as used by
`mcp/tasks.go`; `TTL` and `PollInterval` are optional millisecond counts
(`*int64` in Go). -/
structure Task where
  TaskId : String
  Status : TaskStatus
  StatusMessage : String := ""
  CreatedAt : String := ""
  TTL : Option Int := none
  PollInterval : Option Int := none
  deriving DecidableEq, Repr

/-- Type `TaskOption` from `mcp/tasks.go`: a function that configures a `Task`. -/
def TaskOption := Task → Task

/-- Function `NewTask` from `mcp/tasks.go`: builds a task with the given id, status
`working` and the creation timestamp, then applies the options in order.
The Go code obtains the timestamp from `time.Now().UTC()`; here the
formatted instant is passed in as `nowStr`. -/
def NewTask (taskId : String) (nowStr : String) (opts : List TaskOption) : Task :=
  opts.foldl (fun t opt => opt t)
    { TaskId := taskId, Status := .working, CreatedAt := nowStr }

/-- Option `WithTaskStatus` from `mcp/tasks.go`. -/
def WithTaskStatus (status : TaskStatus) : TaskOption :=
  fun t => { t with Status := status }

/-- Option `WithTaskStatusMessage` from `mcp/tasks.go`. -/
def WithTaskStatusMessage (message : String) : TaskOption :=
  fun t => { t with StatusMessage := message }

/-- Option `WithTaskTTL` from `mcp/tasks.go`. -/
def WithTaskTTL (ttlMs : Int) : TaskOption :=
  fun t => { t with TTL := some ttlMs }

/-- Option `WithTaskPollInterval` from `mcp/tasks.go`. -/
def WithTaskPollInterval (intervalMs : Int) : TaskOption :=
  fun t => { t with PollInterval := some intervalMs }

/-- The nested `Tools` capability field of `TaskRequestsCapability`
(an anonymous struct with a single optional `Call` field in Go). -/
structure TaskToolsCapability where
  Call : Option Unit := none
  deriving DecidableEq, Repr

/-- Struct `mcp.TaskRequestsCapability`. -/
structure TaskRequestsCapability where
  Tools : Option TaskToolsCapability := none
  deriving DecidableEq, Repr

/-- Struct `mcp.TasksCapability`: which task sub-operations the server advertises.
A `some ()` renders a non-nil `*struct` pointer in Go, a `none` a nil one. -/
structure TasksCapability where
  List : Option Unit := none
  Cancel : Option Unit := none
  Requests : Option TaskRequestsCapability := none
  deriving DecidableEq, Repr

/-- Function `NewTasksCapability` from `mcp/tasks.go`: all operations enabled. -/
def NewTasksCapability : TasksCapability :=
  { List := some ()
    Cancel := some ()
    Requests := some { Tools := some { Call := some () } } }

/-- Function `NewTasksCapabilityWithToolsOnly` from `mcp/tasks.go`: only tool call
support; `List` and `Cancel` stay nil. -/
def NewTasksCapabilityWithToolsOnly : TasksCapability :=
  { Requests := some { Tools := some { Call := some () } } }

/-- Whether a `TasksCapability` advertises task-augmented tool calls:
`Requests`, `Requests.Tools` and `Requests.Tools.Call` are all non-nil. -/
def TasksCapability.toolCallEnabled (c : TasksCapability) : Bool :=
  match c.Requests with
  | some r =>
    match r.Tools with
    | some tools => tools.Call.isSome
    | none => false
  | none => false

/-- JSON-RPC error code `mcp.METHOD_NOT_FOUND`. -/
def METHOD_NOT_FOUND : Int := -32601

/-- JSON-RPC error code `mcp.INVALID_PARAMS`. -/
def INVALID_PARAMS : Int := -32602

end Mcp

namespace Server

open Mcp

/-- Errors surfaced by the task store, per the spec's error taxonomy:
`NotFound` for a task that is absent or already swept, `InvalidParams`
for cancelling a terminal task, `ContextCancelled` when the caller's own
context is cancelled while waiting. -/
inductive TaskError where
  | NotFound
  | InvalidParams
  | ContextCancelled
  deriving DecidableEq, Repr

/-- Modelled from the spec: the server's per-task entry (`taskEntry` in the
server package, which is not among the sources).  It carries the task
snapshot, the result and error recorded at the terminal transition, and the
`done` completion signal.  `doneCloses` counts how many times the `done`
channel has been closed — in Go a second close would panic, so the model
must show it stays at most one; the channel reads as closed when the count
is positive.  `createdAtMs` is the creation instant used by the TTL sweep
(the spec measures TTL from creation time). -/
structure TaskEntry (α : Type) where
  task : Task
  createdAtMs : Nat := 0
  result : Option α := none
  resultErr : Option String := none
  doneCloses : Nat := 0
  deriving DecidableEq, Repr

/-- The `done` signal of an entry reads as closed when it has been closed
at least once. -/
def TaskEntry.doneClosed {α : Type} (e : TaskEntry α) : Bool :=
  e.doneCloses ≠ 0

/-- Modelled from the spec: the task store, a map from task id to task
entry, rendered as an association list (most recently created first).
`α` is the type of tool-call results (`any` in Go). -/
abbrev TaskStore (α : Type) : Type := List (String × TaskEntry α)

/-- Look up the entry registered under `taskId` (the Go map read). -/
def lookupEntry {α : Type} (s : TaskStore α) (taskId : String) :
    Option (TaskEntry α) :=
  (List.find? (fun p => p.1 == taskId) s).map (·.2)

/-- Modelled from the spec: `createTask(sessionCtx, taskId, ttl?,
pollInterval?)` inserts an entry with status `working`, recording the given
TTL and poll interval and the creation instant, and returns the new entry.
`nowMs` is the creation instant in milliseconds and `nowStr` its formatted
form stored in the snapshot. -/
def createTask {α : Type} (s : TaskStore α) (taskId : String)
    (ttl pollInterval : Option Int) (nowMs : Nat) (nowStr : String) :
    TaskEntry α × TaskStore α :=
  let e : TaskEntry α :=
    { task :=
        { TaskId := taskId
          Status := .working
          CreatedAt := nowStr
          TTL := ttl
          PollInterval := pollInterval }
      createdAtMs := nowMs }
  (e, (taskId, e) :: s)

/-- Modelled from the spec: `getTask(ctx, taskId)` returns the task
snapshot and the entry, failing with `NotFound` if the id is absent or
already swept. -/
def getTask {α : Type} (s : TaskStore α) (taskId : String) :
    Except TaskError (Task × TaskEntry α) :=
  match lookupEntry s taskId with
  | some e => .ok (e.task, e)
  | none => .error .NotFound

/-- Modelled from the spec: `completeTask(entry, result, err)`.  On an
already-terminal entry it is a no-op (first-write-wins).  Otherwise it sets
the status to `completed` if `err == nil` else `failed`, records the error's
message as the status message in the failure case, stores the result and
the error, and closes the `done` signal. -/
def completeTask {α : Type} (e : TaskEntry α) (result : Option α)
    (err : Option String) : TaskEntry α :=
  if e.task.Status.IsTerminal then e
  else
    match err with
    | none =>
      { e with
        task := { e.task with Status := .completed }
        result := result
        resultErr := none
        doneCloses := e.doneCloses + 1 }
    | some msg =>
      { e with
        task := { e.task with Status := .failed, StatusMessage := msg }
        result := result
        resultErr := some msg
        doneCloses := e.doneCloses + 1 }

/-- Replace the entry stored under `taskId` (the Go store holds pointers,
so a mutation of an entry is visible through the map; here the list is
rebuilt). -/
def setEntry {α : Type} (s : TaskStore α) (taskId : String)
    (e : TaskEntry α) : TaskStore α :=
  s.map (fun p => if p.1 == taskId then (p.1, e) else p)

/-- Modelled from the spec: `cancelTask(ctx, taskId)` fails with
`InvalidParams` if the task is already terminal, with `NotFound` if the id
is absent; on success it transitions the task to `cancelled`, closes the
`done` signal, and returns the cancelled snapshot with the updated store. -/
def cancelTask {α : Type} (s : TaskStore α) (taskId : String) :
    Except TaskError (Task × TaskStore α) :=
  match lookupEntry s taskId with
  | none => .error .NotFound
  | some e =>
    if e.task.Status.IsTerminal then .error .InvalidParams
    else
      let e' : TaskEntry α :=
        { e with
          task := { e.task with Status := .cancelled }
          doneCloses := e.doneCloses + 1 }
      .ok (e'.task, setEntry s taskId e')

/-- Whether an entry's TTL has elapsed at instant `nowMs`: the spec sweeps
an entry once `now > createdAt + ttl`; an entry without a TTL is never
swept. -/
def TaskEntry.expired {α : Type} (e : TaskEntry α) (nowMs : Nat) : Bool :=
  match e.task.TTL with
  | none => false
  | some ttl => (nowMs : Int) > (e.createdAtMs : Int) + ttl

/-- Modelled from the spec: the background TTL sweep removes every entry
whose TTL has elapsed at instant `nowMs`, regardless of status. -/
def sweepExpired {α : Type} (s : TaskStore α) (nowMs : Nat) : TaskStore α :=
  s.filter (fun p => !(p.2.expired nowMs))

/-- The schedule of the external events that can unblock a waiter: the
instant the task's `done` signal closes and the instant, if any, at which
the caller's own context is cancelled.  Instants are milliseconds after the
request was issued. -/
structure Schedule where
  doneAt : Nat := 0
  cancelAt : Option Nat := none
  deriving DecidableEq, Repr

/-- Modelled from the spec: `waitForResult(ctx, taskId)` blocks until the
task's `done` signal fires or the caller's context is cancelled, whichever
comes first, and then reads the entry's recorded result.  The returned pair
is the instant at which the call returns together with its outcome; `e` is
the state of the entry once `done` has fired.  On caller-context
cancellation it returns the cancellation error without touching the
task. -/
def waitForResult {α : Type} (e : TaskEntry α) (sched : Schedule) :
    Nat × Except TaskError (Option α) :=
  match sched.cancelAt with
  | some c =>
    if c < sched.doneAt then (c, .error .ContextCancelled)
    else (sched.doneAt, .ok e.result)
  | none => (sched.doneAt, .ok e.result)

/-- Modelled from the spec: the server capabilities the dispatcher and the
initialize handler consult.  `tasks` is nil unless a task capability option
was given; `elicitation` mirrors `capabilities.elicitation`. -/
structure ServerCapabilities where
  tasks : Option TasksCapability := none
  elicitation : Option Bool := none
  deriving DecidableEq, Repr

/-- A server configuration option (`ServerOption` in Go), reduced to its
effect on the advertised capabilities. -/
def ServerOption := ServerCapabilities → ServerCapabilities

/-- Modelled from the spec: `NewMCPServer(name, version, opts...)` starts
from empty capabilities (no task capability advertised) and applies the
options in order. -/
def NewMCPServerCapabilities (opts : List ServerOption) : ServerCapabilities :=
  opts.foldl (fun c opt => opt c) {}

/-- Modelled from the spec: the `WithTaskCapabilities(list, cancel,
toolCall)` server option enables the task capability with each
sub-operation advertised exactly when its flag is set
(`TestMCPServer_TaskCapabilities` checks each flag independently). -/
def WithTaskCapabilities (list cancel toolCall : Bool) : ServerOption :=
  fun c =>
    { c with
      tasks := some
        { List := if list then some () else none
          Cancel := if cancel then some () else none
          Requests :=
            if toolCall then some { Tools := some { Call := some () } }
            else none } }

/-- Modelled from the spec: the `WithElicitation()` server option. -/
def WithElicitation : ServerOption :=
  fun c => { c with elicitation := some true }

/-- The inbound task requests routed by the dispatcher, by method name:
`tasks/get`, `tasks/list`, `tasks/cancel`, `tasks/result`.  Parameters are
carried by the constructors. -/
inductive TaskRequest where
  | get (taskId : String)
  | list
  | cancel (taskId : String)
  | result (taskId : String)
  deriving DecidableEq, Repr

/-- The JSON-RPC method name of a task request. -/
def TaskRequest.method : TaskRequest → String
  | .get _ => "tasks/get"
  | .list => "tasks/list"
  | .cancel _ => "tasks/cancel"
  | .result _ => "tasks/result"

/-- The dispatcher's answer to a task request: a typed result or a JSON-RPC
error with its code. -/
inductive TaskResponse (α : Type) where
  | getResult (task : Task)
  | listResult (tasks : List Task)
  | cancelResult (task : Task)
  | taskResult (v : Option α)
  | error (code : Int)
  deriving DecidableEq, Repr

/-- Map a task-store error onto the JSON-RPC error code the protocol layer
reports: per the spec, "task not found" and "cannot cancel a terminal task"
both surface as invalid-params errors, and a caller-side context
cancellation is propagated rather than wrapped (rendered here with the
request-cancelled code -32800 used by MCP). -/
def TaskError.toCode : TaskError → Int
  | .NotFound => INVALID_PARAMS
  | .InvalidParams => INVALID_PARAMS
  | .ContextCancelled => -32800

/-- Modelled from the spec: the request dispatcher for the task method
subset.  A task method is rejected with `MethodNotFound` whenever the
server was constructed without task capability, regardless of the request's
parameters; otherwise the request is routed to the matching handler.  The
returned triple is the instant the response is produced (0, the request's
own instant, except for `tasks/result` which blocks under `sched`), the
response, and the store afterwards. -/
def handleTaskRequest {α : Type} (caps : ServerCapabilities)
    (sched : Schedule) (s : TaskStore α) :
    TaskRequest → Nat × TaskResponse α × TaskStore α
  | req =>
    if caps.tasks.isNone then (0, .error METHOD_NOT_FOUND, s)
    else
      match req with
      | .get tid =>
        match getTask s tid with
        | .ok (t, _) => (0, .getResult t, s)
        | .error err => (0, .error err.toCode, s)
      | .list => (0, .listResult (s.map (·.2.task)), s)
      | .cancel tid =>
        match cancelTask s tid with
        | .ok (t, s') => (0, .cancelResult t, s')
        | .error err => (0, .error err.toCode, s)
      | .result tid =>
        match getTask s tid with
        | .ok (_, e) =>
          let (at_, r) := waitForResult e sched
          match r with
          | .ok v => (at_, .taskResult v, s)
          | .error err => (at_, .error err.toCode, s)
        | .error err => (0, .error err.toCode, s)

/-- Struct `mcp.ElicitationParams`, as used by the elicitation tests: a message, a
requested schema (abstracted to an opaque string), and the URL-mode
fields. -/
structure ElicitationParams where
  Message : String := ""
  RequestedSchema : String := ""
  Mode : String := ""
  ElicitationID : String := ""
  URL : String := ""
  deriving DecidableEq, Repr

/-- Struct `mcp.ElicitationRequest`. -/
structure ElicitationRequest where
  Params : ElicitationParams
  deriving DecidableEq, Repr

/-- Struct `mcp.ElicitationResult`, reduced to the action taken and an opaque
content payload. -/
structure ElicitationResult where
  Action : String := ""
  Content : Option String := none
  deriving DecidableEq, Repr

/-- Errors of the server-to-client request entry points:
`ErrNoActiveSession` and `ErrElicitationNotSupported` in the server
package. -/
inductive SessionError where
  | NoActiveSession
  | ElicitationNotSupported
  deriving DecidableEq, Repr

/-- Modelled from the spec: a client session as seen by the elicitation
path — its id, whether it implements the elicitation interface
(`SessionWithElicitation` in Go), the canned response it produces when it
does, and the queue of elicitation requests that have been enqueued towards
it. -/
structure ClientSession where
  sessionID : String
  supportsElicitation : Bool := false
  response : ElicitationResult := {}
  channel : List ElicitationRequest := []
  deriving DecidableEq, Repr

/-- Modelled from the spec: `RequestElicitation(ctx, request)`.  It fails
with `NoActiveSession` when no session is bound to the calling context and
with `ElicitationNotSupported` when the bound session does not implement
elicitation; only when both checks pass is the request enqueued to the
session and its response awaited.  The returned pair is the outcome
together with the state of the bound session afterwards. -/
def RequestElicitation (bound : Option ClientSession)
    (req : ElicitationRequest) :
    Except SessionError ElicitationResult × Option ClientSession :=
  match bound with
  | none => (.error .NoActiveSession, none)
  | some sess =>
    if sess.supportsElicitation then
      (.ok sess.response, some { sess with channel := sess.channel ++ [req] })
    else
      (.error .ElicitationNotSupported, some sess)

/-- A JSON-RPC response arriving at the streamable-HTTP POST endpoint, as
the correlation-resolution path sees it: the response id, the shape of its
`result` and `error` members, and the session id header if any.  A
pong-like response has an empty or absent result and no registered
waiter. -/
structure InboundResponse where
  id : Nat
  hasResult : Bool := false
  resultEmpty : Bool := true
  hasError : Bool := false
  errorEmpty : Bool := true
  sessionHeader : Option String := none
  deriving DecidableEq, Repr

/-- What the POST handler does with an inbound response. -/
inductive ResponseOutcome where
  | dropped
  | delivered (id : Nat)
  | errorMissingSession
  deriving DecidableEq, Repr

/-- The body the POST handler answers with: empty on the silent-drop and
delivery paths, the sampling-session error text otherwise. -/
def ResponseOutcome.body : ResponseOutcome → String
  | .dropped => ""
  | .delivered _ => ""
  | .errorMissingSession => "Missing session ID for sampling response"

/-- The HTTP status the POST handler answers with. -/
def ResponseOutcome.status : ResponseOutcome → Nat
  | .dropped => 200
  | .delivered _ => 200
  | .errorMissingSession => 400

/-- Modelled from the spec: the correlation-resolution path of the
streamable-HTTP POST handler.  Whether an inbound response belongs to a
tracked server-to-client call is decided by the presence of a registered
waiter for its id, never by the payload's shape: with no registered waiter
the response is dropped silently (status 200); with one, the response is
routed to the waiter, which requires the session id header. -/
def handlePostResponse (waiters : List Nat) (r : InboundResponse) :
    ResponseOutcome :=
  if waiters.contains r.id then
    match r.sessionHeader with
    | some _ => .delivered r.id
    | none => .errorMissingSession
  else .dropped

/-- Helper: `completeTask` on an already-terminal entry is the identity. -/
theorem completeTask_of_terminal {α : Type} (e : TaskEntry α) (r : Option α)
    (err : Option String) (h : e.task.Status.IsTerminal = true) :
    completeTask e r err = e := by
  simp [completeTask, h]

/-- Helper: the entry produced by `completeTask` is always terminal. -/
theorem completeTask_isTerminal {α : Type} (e : TaskEntry α) (r : Option α)
    (err : Option String) :
    (completeTask e r err).task.Status.IsTerminal = true := by
  by_cases h : e.task.Status.IsTerminal = true
  · rw [completeTask_of_terminal e r err h]; exact h
  · rw [Bool.not_eq_true] at h
    cases err <;> simp [completeTask, h] <;> rfl

/-- C1: completing is first-write-wins.  Once a call to `completeTask` has
made the entry terminal, a later `completeTask` call — success after
success, or success then failure — returns the entry of the first call
unchanged: same status, result and `resultErr`, and the same `doneCloses`
count, so the `done` signal is never closed a second time. -/
theorem completeTask_first_write_wins {α : Type} (e : TaskEntry α)
    (r₁ r₂ : Option α) (err₁ err₂ : Option String) :
    completeTask (completeTask e r₁ err₁) r₂ err₂ = completeTask e r₁ err₁ :=
  completeTask_of_terminal _ r₂ err₂ (completeTask_isTerminal e r₁ err₁)

/-- C3: on a non-terminal entry, `completeTask` sets the status to
`completed` when the error is absent and to `failed` when it is present,
records the error's (non-empty) message as the status message in the
failure case, stores the result and the error, and closes the `done`
signal. -/
theorem completeTask_nonterminal_spec {α : Type} (e : TaskEntry α)
    (r : Option α) (msg : String)
    (hnt : e.task.Status.IsTerminal = false) (hmsg : msg ≠ "") :
    (completeTask e r none).task.Status = .completed ∧
    (completeTask e r none).result = r ∧
    (completeTask e r none).resultErr = none ∧
    (completeTask e r none).doneCloses = e.doneCloses + 1 ∧
    (completeTask e r none).doneClosed = true ∧
    (completeTask e r (some msg)).task.Status = .failed ∧
    (completeTask e r (some msg)).task.StatusMessage = msg ∧
    (completeTask e r (some msg)).task.StatusMessage ≠ "" ∧
    (completeTask e r (some msg)).result = r ∧
    (completeTask e r (some msg)).resultErr = some msg ∧
    (completeTask e r (some msg)).doneCloses = e.doneCloses + 1 ∧
    (completeTask e r (some msg)).doneClosed = true := by
  simp [completeTask, hnt, TaskEntry.doneClosed, hmsg]

/-- A concrete working entry used by the witnesses below. -/
def sampleEntry : TaskEntry String :=
  { task := { TaskId := "task-123", Status := .working, TTL := some 60000,
              PollInterval := some 1000 } }

/-- Witness for C3 at a concrete entry, result and error message. -/
theorem completeTask_nonterminal_spec_witness :
    sampleEntry.task.Status.IsTerminal = false ∧ "boom" ≠ "" ∧
    ((completeTask sampleEntry (some "ok") none).task.Status = .completed ∧
     (completeTask sampleEntry (some "ok") none).result = some "ok" ∧
     (completeTask sampleEntry (some "ok") none).resultErr = none ∧
     (completeTask sampleEntry (some "ok") none).doneCloses =
        sampleEntry.doneCloses + 1 ∧
     (completeTask sampleEntry (some "ok") none).doneClosed = true ∧
     (completeTask sampleEntry (some "ok") (some "boom")).task.Status = .failed ∧
     (completeTask sampleEntry (some "ok") (some "boom")).task.StatusMessage =
        "boom" ∧
     (completeTask sampleEntry (some "ok") (some "boom")).task.StatusMessage ≠
        "" ∧
     (completeTask sampleEntry (some "ok") (some "boom")).result = some "ok" ∧
     (completeTask sampleEntry (some "ok") (some "boom")).resultErr =
        some "boom" ∧
     (completeTask sampleEntry (some "ok") (some "boom")).doneCloses =
        sampleEntry.doneCloses + 1 ∧
     (completeTask sampleEntry (some "ok") (some "boom")).doneClosed = true) :=
  ⟨by decide, by decide,
    completeTask_nonterminal_spec sampleEntry (some "ok") "boom"
      (by decide) (by decide)⟩

/-- C5: `createTask` followed immediately by `getTask` on the same id
succeeds and returns the created entry's snapshot: its `taskId` equals the
created one, its status is `working`, and its TTL field is exactly the TTL
given at creation (present and equal whenever one was given). -/
theorem createTask_then_getTask {α : Type} (s : TaskStore α) (tid : String)
    (ttl pollInterval : Option Int) (nowMs : Nat) (nowStr : String) :
    getTask (createTask s tid ttl pollInterval nowMs nowStr).2 tid =
      .ok ((createTask s tid ttl pollInterval nowMs nowStr).1.task,
           (createTask s tid ttl pollInterval nowMs nowStr).1) ∧
    (createTask s tid ttl pollInterval nowMs nowStr).1.task.TaskId = tid ∧
    (createTask s tid ttl pollInterval nowMs nowStr).1.task.Status =
      .working ∧
    (createTask s tid ttl pollInterval nowMs nowStr).1.task.TTL = ttl ∧
    (createTask s tid ttl pollInterval nowMs nowStr).1.task.PollInterval =
      pollInterval := by
  simp [createTask, getTask, lookupEntry]

/-- A server configuration with the full task capability, as built by
`WithTaskCapabilities(true, true, true)`. -/
def sampleCaps : ServerCapabilities := { tasks := some NewTasksCapability }

/-- A concrete working entry stored under `task-789`. -/
def workingEntry : TaskEntry String :=
  { task := { TaskId := "task-789", Status := .working } }

/-- A concrete completed entry stored under `task-done`. -/
def doneEntry : TaskEntry String :=
  { task := { TaskId := "task-done", Status := .completed }, doneCloses := 1 }

/-- A concrete store holding one working and one completed task. -/
def sampleStore : TaskStore String :=
  [("task-789", workingEntry), ("task-done", doneEntry)]

/-- C2: cancelling a `working` task succeeds, both at the store and through
the `tasks/cancel` handler, and the returned snapshot has status
`cancelled`; cancelling a task already terminal fails with `InvalidParams`,
surfaces as an invalid-params protocol error, and leaves the store — hence
the task's status — unchanged. -/
theorem cancelTask_spec {α : Type} (caps : ServerCapabilities)
    (tc : TasksCapability) (sched : Schedule) (s : TaskStore α)
    (tid : String) (e : TaskEntry α)
    (hcaps : caps.tasks = some tc)
    (hfind : lookupEntry s tid = some e) :
    (e.task.Status = .working →
      ∃ t s', cancelTask s tid = .ok (t, s') ∧ t.Status = .cancelled ∧
        handleTaskRequest caps sched s (.cancel tid) =
          (0, .cancelResult t, s')) ∧
    (e.task.Status.IsTerminal = true →
      cancelTask s tid = .error .InvalidParams ∧
      handleTaskRequest caps sched s (.cancel tid) =
        (0, .error INVALID_PARAMS, s)) := by
  constructor
  · intro hw
    have hterm : e.task.Status.IsTerminal = false := by rw [hw]; rfl
    refine ⟨{ e.task with Status := .cancelled },
      setEntry s tid
        { e with task := { e.task with Status := .cancelled },
                 doneCloses := e.doneCloses + 1 }, ?_, rfl, ?_⟩
    · simp [cancelTask, hfind, hterm]
    · simp [handleTaskRequest, hcaps, cancelTask, hfind, hterm]
  · intro hterm
    refine ⟨?_, ?_⟩
    · simp [cancelTask, hfind, hterm]
    · simp [handleTaskRequest, hcaps, cancelTask, hfind, hterm,
        TaskError.toCode, INVALID_PARAMS]

/-- Witness for C2: the working task `task-789` cancels to `cancelled`,
the completed task `task-done` yields `InvalidParams` with the store
untouched. -/
theorem cancelTask_spec_witness :
    sampleCaps.tasks = some NewTasksCapability ∧
    lookupEntry sampleStore "task-789" = some workingEntry ∧
    lookupEntry sampleStore "task-done" = some doneEntry ∧
    (∃ t s', cancelTask sampleStore "task-789" = .ok (t, s') ∧
      t.Status = .cancelled ∧
      handleTaskRequest sampleCaps {} sampleStore (.cancel "task-789") =
        (0, .cancelResult t, s')) ∧
    (cancelTask sampleStore "task-done" = .error .InvalidParams ∧
     handleTaskRequest sampleCaps {} sampleStore (.cancel "task-done") =
       (0, .error INVALID_PARAMS, sampleStore)) := by
  refine ⟨rfl, by decide, by decide, ?_, ?_⟩
  · exact (cancelTask_spec sampleCaps NewTasksCapability {} sampleStore
      "task-789" workingEntry rfl (by decide)).1 (by decide)
  · exact (cancelTask_spec sampleCaps NewTasksCapability {} sampleStore
      "task-done" doneEntry rfl (by decide)).2 (by decide)

/-- C6: a task id that is absent — never created, or swept after its TTL
elapsed — makes `getTask` fail with `NotFound`; the error is the same in
both cases, so an expired task is indistinguishable from one that never
existed; and through the `tasks/get` handler it surfaces as an
invalid-params protocol error. -/
theorem getTask_notFound_spec {α : Type} (caps : ServerCapabilities)
    (tc : TasksCapability) (sched : Schedule) (s : TaskStore α)
    (tid : String) (nowMs : Nat)
    (hcaps : caps.tasks = some tc)
    (hexp : ∀ p ∈ s, p.1 = tid → p.2.expired nowMs = true) :
    getTask (sweepExpired s nowMs) tid = .error .NotFound ∧
    (∀ s₂ : TaskStore α, lookupEntry s₂ tid = none →
      getTask s₂ tid = .error .NotFound ∧
      getTask (sweepExpired s nowMs) tid = getTask s₂ tid) ∧
    handleTaskRequest caps sched (sweepExpired s nowMs) (.get tid) =
      (0, .error INVALID_PARAMS, sweepExpired s nowMs) := by
  have hnone : lookupEntry (sweepExpired s nowMs) tid = none := by
    unfold lookupEntry sweepExpired
    rw [Option.map_eq_none']
    rw [List.find?_eq_none]
    intro p hp hbeq
    rw [List.mem_filter] at hp
    have heq : p.1 = tid := by simpa using hbeq
    have hex := hexp p hp.1 heq
    simp [hex] at hp
  refine ⟨?_, ?_, ?_⟩
  · simp [getTask, hnone]
  · intro s₂ h₂
    exact ⟨by simp [getTask, h₂], by simp [getTask, hnone, h₂]⟩
  · simp [handleTaskRequest, hcaps, getTask, hnone, TaskError.toCode,
      INVALID_PARAMS]

/-- An entry created at instant 0 with a 100ms TTL, expired by instant
150. -/
def expiredEntry : TaskEntry String :=
  { task := { TaskId := "task-ttl", Status := .working, TTL := some 100 }
    createdAtMs := 0 }

/-- A store holding only the expired entry. -/
def ttlStore : TaskStore String := [("task-ttl", expiredEntry)]

/-- Witness for C6: after the sweep at instant 150, `task-ttl` is
`NotFound`, identically to a store in which it never existed, and the
handler answers with the invalid-params code. -/
theorem getTask_notFound_spec_witness :
    sampleCaps.tasks = some NewTasksCapability ∧
    (∀ p ∈ ttlStore, p.1 = "task-ttl" → p.2.expired 150 = true) ∧
    getTask (sweepExpired ttlStore 150) "task-ttl" = .error .NotFound ∧
    getTask ([] : TaskStore String) "task-ttl" = .error .NotFound ∧
    getTask (sweepExpired ttlStore 150) "task-ttl" =
      getTask ([] : TaskStore String) "task-ttl" ∧
    handleTaskRequest sampleCaps {} (sweepExpired ttlStore 150)
      (.get "task-ttl") =
      (0, .error INVALID_PARAMS, sweepExpired ttlStore 150) := by
  have h := getTask_notFound_spec sampleCaps NewTasksCapability {} ttlStore
    "task-ttl" 150 rfl (by decide)
  exact ⟨rfl, by decide, h.1, (h.2.1 [] (by decide)).1,
    (h.2.1 [] (by decide)).2, h.2.2⟩

/-- C7: every inbound request whose method is `tasks/get`, `tasks/list`,
`tasks/cancel` or `tasks/result` is rejected with a `MethodNotFound`
JSON-RPC error when the server was constructed without task capability,
regardless of the request's parameters, the store or the schedule. -/
theorem taskMethods_rejected_without_capability {α : Type}
    (caps : ServerCapabilities) (sched : Schedule) (s : TaskStore α)
    (req : TaskRequest) (hcaps : caps.tasks = none) :
    req.method ∈ ["tasks/get", "tasks/list", "tasks/cancel",
      "tasks/result"] ∧
    handleTaskRequest caps sched s req = (0, .error METHOD_NOT_FOUND, s) := by
  constructor
  · cases req <;> simp [TaskRequest.method]
  · simp [handleTaskRequest, hcaps]

/-- Witness for C7: a server built with no options rejects a concrete
`tasks/get` request on a concrete store. -/
theorem taskMethods_rejected_without_capability_witness :
    (NewMCPServerCapabilities []).tasks = none ∧
    (TaskRequest.get "task-1").method ∈ ["tasks/get", "tasks/list",
      "tasks/cancel", "tasks/result"] ∧
    handleTaskRequest (NewMCPServerCapabilities []) {} sampleStore
      (.get "task-1") = (0, .error METHOD_NOT_FOUND, sampleStore) := by
  have h := taskMethods_rejected_without_capability
    (NewMCPServerCapabilities []) {} sampleStore (.get "task-1") rfl
  exact ⟨rfl, h.1, h.2⟩

/-- C4: a `tasks/result` request — routed by the dispatcher to
`waitForResult` — returns only after the task's terminal transition.  If
the request is issued at instant 0 against a task whose completion fires
the `done` signal at instant `D` (and the caller's context is never
cancelled), the response is produced exactly at instant `D`, hence after an
elapsed time of at least `D`, and carries the result the completion
recorded. -/
theorem tasksResult_waits_for_completion {α : Type}
    (caps : ServerCapabilities) (tc : TasksCapability) (s' : TaskStore α)
    (tid : String) (e : TaskEntry α) (r : α) (D : Nat)
    (hcaps : caps.tasks = some tc)
    (hnt : e.task.Status.IsTerminal = false)
    (hfind : lookupEntry s' tid = some (completeTask e (some r) none)) :
    waitForResult (completeTask e (some r) none) ⟨D, none⟩ =
      (D, .ok (some r)) ∧
    (handleTaskRequest caps ⟨D, none⟩ s' (.result tid)).1 = D ∧
    D ≤ (handleTaskRequest caps ⟨D, none⟩ s' (.result tid)).1 ∧
    handleTaskRequest caps ⟨D, none⟩ s' (.result tid) =
      (D, .taskResult (some r), s') := by
  have hres : (completeTask e (some r) none).result = some r := by
    simp [completeTask, hnt]
  have hwait : waitForResult (completeTask e (some r) none) ⟨D, none⟩ =
      (D, .ok (some r)) := by
    simp [waitForResult, hres]
  have hdisp : handleTaskRequest caps ⟨D, none⟩ s' (.result tid) =
      (D, .taskResult (some r), s') := by
    simp [handleTaskRequest, hcaps, getTask, hfind, hwait]
  exact ⟨hwait, by rw [hdisp], by rw [hdisp], hdisp⟩

/-- The working entry behind the `task-wait` scenario. -/
def waitEntry : TaskEntry String :=
  { task := { TaskId := "task-wait", Status := .working } }

/-- The store once `task-wait` has completed with its delayed result. -/
def waitStore : TaskStore String :=
  [("task-wait", completeTask waitEntry (some "delayed result") none)]

/-- Witness for C4: `task-wait` completes 100ms after the request; the
response arrives at instant 100 and carries the delayed result. -/
theorem tasksResult_waits_for_completion_witness :
    sampleCaps.tasks = some NewTasksCapability ∧
    waitEntry.task.Status.IsTerminal = false ∧
    lookupEntry waitStore "task-wait" =
      some (completeTask waitEntry (some "delayed result") none) ∧
    (waitForResult (completeTask waitEntry (some "delayed result") none)
        ⟨100, none⟩ = (100, .ok (some "delayed result")) ∧
     (handleTaskRequest sampleCaps ⟨100, none⟩ waitStore
        (.result "task-wait")).1 = 100 ∧
     100 ≤ (handleTaskRequest sampleCaps ⟨100, none⟩ waitStore
        (.result "task-wait")).1 ∧
     handleTaskRequest sampleCaps ⟨100, none⟩ waitStore
        (.result "task-wait") =
       (100, .taskResult (some "delayed result"), waitStore)) :=
  ⟨rfl, by decide, by decide,
    tasksResult_waits_for_completion sampleCaps NewTasksCapability waitStore
      "task-wait" waitEntry "delayed result" 100 rfl (by decide) (by decide)⟩

/-- C8: an inbound JSON-RPC response whose id has no registered waiter in
the correlation table — whatever the shape of its `result` or `error`
members, pong-like or otherwise, and whatever session header it carries —
is dropped silently: the POST is answered with status 200 and the body
never contains the "missing session ID for sampling response" error. -/
theorem unregisteredResponse_dropped (waiters : List Nat)
    (r : InboundResponse) (hw : r.id ∉ waiters) :
    handlePostResponse waiters r = .dropped ∧
    (handlePostResponse waiters r).status = 200 ∧
    handlePostResponse waiters r ≠ .errorMissingSession ∧
    (handlePostResponse waiters r).body ≠
      "Missing session ID for sampling response" := by
  simp [handlePostResponse, hw, ResponseOutcome.status, ResponseOutcome.body]

/-- Witness for C8: a pong-like response with id 123, an empty result and
no session header, arriving with an empty correlation table. -/
theorem unregisteredResponse_dropped_witness :
    (123 : Nat) ∉ ([] : List Nat) ∧
    (handlePostResponse []
        { id := 123, hasResult := true, resultEmpty := true } = .dropped ∧
     (handlePostResponse []
        { id := 123, hasResult := true, resultEmpty := true }).status = 200 ∧
     handlePostResponse []
        { id := 123, hasResult := true, resultEmpty := true } ≠
       .errorMissingSession ∧
     (handlePostResponse []
        { id := 123, hasResult := true, resultEmpty := true }).body ≠
       "Missing session ID for sampling response") :=
  ⟨by decide,
    unregisteredResponse_dropped []
      { id := 123, hasResult := true, resultEmpty := true } (by decide)⟩

/-- C9: `RequestElicitation` fails with `NoActiveSession` when no session
is bound to the calling context, and with `ElicitationNotSupported` when
the bound session does not support elicitation; in both failure cases the
bound session — its channel of enqueued requests included — is returned
exactly as it was, so no request is ever enqueued. -/
theorem requestElicitation_failure_paths (sess : ClientSession)
    (req otherReq : ElicitationRequest)
    (hns : sess.supportsElicitation = false) :
    RequestElicitation none req = (.error .NoActiveSession, none) ∧
    RequestElicitation none otherReq = (.error .NoActiveSession, none) ∧
    RequestElicitation (some sess) req =
      (.error .ElicitationNotSupported, some sess) ∧
    (RequestElicitation (some sess) req).2 = some sess := by
  refine ⟨rfl, rfl, ?_, ?_⟩ <;> simp [RequestElicitation, hns]

/-- A basic session that does not implement elicitation. -/
def basicSession : ClientSession := { sessionID := "test-session" }

/-- Witness for C9: the no-session and unsupporting-session failures at a
concrete request, with the session state unchanged. -/
theorem requestElicitation_failure_paths_witness :
    basicSession.supportsElicitation = false ∧
    (RequestElicitation none { Params := { Message := "Need info" } } =
       (.error .NoActiveSession, none) ∧
     RequestElicitation none { Params := { Message := "More info" } } =
       (.error .NoActiveSession, none) ∧
     RequestElicitation (some basicSession)
        { Params := { Message := "Need info" } } =
       (.error .ElicitationNotSupported, some basicSession) ∧
     (RequestElicitation (some basicSession)
        { Params := { Message := "Need info" } }).2 = some basicSession) :=
  ⟨by decide,
    requestElicitation_failure_paths basicSession
      { Params := { Message := "Need info" } }
      { Params := { Message := "More info" } } (by decide)⟩

/-- C10: the advertised task capability mirrors the server's configuration
per sub-operation.  With `WithTaskCapabilities(list, cancel, toolCall)` the
capability is present with `List` non-nil exactly when `list` is set,
`Cancel` non-nil exactly when `cancel` is set, and `Requests.Tools.Call`
non-nil exactly when `toolCall` is set; with no task option the `Tasks`
capability is entirely absent. -/
theorem withTaskCapabilities_mirrors_flags (l c tc : Bool)
    (base : ServerCapabilities) :
    (∃ t : TasksCapability,
      (WithTaskCapabilities l c tc base).tasks = some t ∧
      (NewMCPServerCapabilities [WithTaskCapabilities l c tc]).tasks =
        some t ∧
      t.List.isSome = l ∧ t.Cancel.isSome = c ∧ t.toolCallEnabled = tc) ∧
    (NewMCPServerCapabilities []).tasks = none := by
  refine ⟨⟨_, rfl, rfl, ?_, ?_, ?_⟩, rfl⟩
  · cases l <;> rfl
  · cases c <;> rfl
  · cases tc <;> rfl

end Server
